import Mathlib

/-
Verification of the tracker-collector worker (src/lib.rs).

The development shallowly embeds the pure logic of the worker:
  * `Json` / `Json.parse` model `serde_json::Value` and `serde_json::from_str`
    (for the JSON subset without `\u` escape sequences, which none of the
    payloads considered here use);
  * `trackersOfJson` models deserialization of the `Trackers` struct
    (a map with a `trackers` field holding a sequence of strings;
    unknown fields ignored, the sequence collected into a string set);
  * `parse_tracker` models `parse_tracker`: Rust panics are modelled as
    `Except.error ()`;
  * `get_trackers` models `get_trackers`, parameterized by the configured
    descriptor list (the bundled `trackers.yml` contents) and by the network,
    a function from URL to either a response body or a transport failure
    (request creation, send and body-read failures are all collapsed into
    `Except.error ()`, each of which panics in the source);
  * `fetchHandler`, `scheduled`, `change_global_option_http` and
    `wsReceive` model the `fetch` event handler, the `scheduled` event
    handler and the two RPC transports.
-/

namespace TrackerCollector

/-- Character constants used by the JSON grammar, written via code points so
that the parser below stays readable. -/
def chQuote : Char := Char.ofNat 34

/-- Backslash character (code point 92). -/
def chBackslash : Char := Char.ofNat 92

/-- Left curly brace character (code point 123). -/
def chLCurl : Char := Char.ofNat 123

/-- Right curly brace character (code point 125). -/
def chRCurl : Char := Char.ofNat 125

/-- Model of `serde_json::Value`. Numbers keep their source token: none of
the worker's logic ever inspects a numeric value, only shapes and keys. -/
inductive Json where
  | null : Json
  | bool (b : Bool) : Json
  | num (tok : String) : Json
  | str (s : String) : Json
  | arr (xs : List Json) : Json
  | obj (kvs : List (String × Json)) : Json
deriving Repr

/-- JSON insignificant whitespace. -/
def isJsonWs (c : Char) : Bool :=
  c = ' ' || c = '\n' || c = '\t' || c = '\r'

/-- Drop leading JSON whitespace. -/
def skipWs : List Char → List Char
  | [] => []
  | c :: rest => if isJsonWs c then skipWs rest else c :: rest

/-- Decode one escape character after a backslash (the JSON escapes other
than `\u`). -/
def unescape (c : Char) : Option Char :=
  if c = chQuote then some chQuote
  else if c = chBackslash then some chBackslash
  else if c = '/' then some '/'
  else if c = 'n' then some '\n'
  else if c = 't' then some '\t'
  else if c = 'r' then some '\r'
  else if c = 'b' then some (Char.ofNat 8)
  else if c = 'f' then some (Char.ofNat 12)
  else none

/-- Parse the contents of a JSON string literal after its opening quote,
returning the decoded characters and the input remaining after the closing
quote. -/
def pStr : List Char → Option (List Char × List Char)
  | [] => none
  | c :: rest =>
    if c = chQuote then some ([], rest)
    else if c = chBackslash then
      match rest with
      | [] => none
      | e :: rest2 =>
        match unescape e with
        | none => none
        | some d =>
          match pStr rest2 with
          | none => none
          | some (s, r) => some (d :: s, r)
    else if c.val < 32 then none
    else
      match pStr rest with
      | none => none
      | some (s, r) => some (c :: s, r)

/-- Take a run of decimal digits. -/
def takeDigits : List Char → (List Char × List Char)
  | [] => ([], [])
  | c :: rest =>
    if c.isDigit then
      let (ds, r) := takeDigits rest
      (c :: ds, r)
    else ([], c :: rest)

/-- Parse a JSON number token (sign, integer part, optional fraction and
exponent), returning the token characters and the rest. -/
def pNum (cs : List Char) : Option (List Char × List Char) :=
  let (sign, cs1) :=
    match cs with
    | '-' :: rest => (['-'], rest)
    | _ => ([], cs)
  let (intPart, cs2) := takeDigits cs1
  if intPart = [] then none
  else
    let (fracPart, cs3) :=
      match cs2 with
      | '.' :: rest =>
        let (ds, r) := takeDigits rest
        if ds = [] then ([], cs2) else ('.' :: ds, r)
      | _ => ([], cs2)
    if fracPart = [] ∧ cs2.head? = some '.' then none
    else
      let (expPart, cs4) :=
        match cs3 with
        | c :: rest =>
          if c = 'e' ∨ c = 'E' then
            let (sgn, r1) :=
              match rest with
              | s :: r => if s = '+' ∨ s = '-' then ([s], r) else ([], rest)
              | [] => ([], rest)
            let (ds, r2) := takeDigits r1
            if ds = [] then ([], cs3) else (c :: sgn ++ ds, r2)
          else ([], cs3)
        | [] => ([], cs3)
      if expPart = [] ∧ (cs3.head? = some 'e' ∨ cs3.head? = some 'E') then none
      else some (sign ++ intPart ++ fracPart ++ expPart, cs4)

mutual

/-- Fuel-indexed parser for one JSON value. -/
def pVal : Nat → List Char → Option (Json × List Char)
  | 0, _ => none
  | fuel + 1, cs =>
    match skipWs cs with
    | [] => none
    | c :: rest =>
      if c = 'n' then
        match rest with
        | 'u' :: 'l' :: 'l' :: r => some (.null, r)
        | _ => none
      else if c = 't' then
        match rest with
        | 'r' :: 'u' :: 'e' :: r => some (.bool true, r)
        | _ => none
      else if c = 'f' then
        match rest with
        | 'a' :: 'l' :: 's' :: 'e' :: r => some (.bool false, r)
        | _ => none
      else if c = chQuote then
        match pStr rest with
        | none => none
        | some (s, r) => some (.str ⟨s⟩, r)
      else if c = '[' then
        match skipWs rest with
        | ']' :: r => some (.arr [], r)
        | cs2 =>
          match pArrItems fuel cs2 with
          | none => none
          | some (vs, r) => some (.arr vs, r)
      else if c = chLCurl then
        match skipWs rest with
        | c2 :: r =>
          if c2 = chRCurl then some (.obj [], r)
          else
            match pObjItems fuel (c2 :: r) with
            | none => none
            | some (kvs, r2) => some (.obj kvs, r2)
        | [] => none
      else
        match pNum (c :: rest) with
        | none => none
        | some (tok, r) => some (.num ⟨tok⟩, r)

/-- Fuel-indexed parser for the items of a non-empty JSON array, up to and
including the closing bracket. -/
def pArrItems : Nat → List Char → Option (List Json × List Char)
  | 0, _ => none
  | fuel + 1, cs =>
    match pVal fuel cs with
    | none => none
    | some (v, rest) =>
      match skipWs rest with
      | ',' :: r =>
        match pArrItems fuel r with
        | none => none
        | some (vs, r2) => some (v :: vs, r2)
      | ']' :: r => some ([v], r)
      | _ => none

/-- Fuel-indexed parser for the members of a non-empty JSON object, up to
and including the closing brace. -/
def pObjItems : Nat → List Char → Option (List (String × Json) × List Char)
  | 0, _ => none
  | fuel + 1, cs =>
    match skipWs cs with
    | c :: rest =>
      if c = chQuote then
        match pStr rest with
        | none => none
        | some (k, r1) =>
          match skipWs r1 with
          | ':' :: r2 =>
            match pVal fuel r2 with
            | none => none
            | some (v, r3) =>
              match skipWs r3 with
              | ',' :: r4 =>
                match pObjItems fuel r4 with
                | none => none
                | some (kvs, r5) => some ((⟨k⟩, v) :: kvs, r5)
              | c2 :: r4 =>
                if c2 = chRCurl then some ([(⟨k⟩, v)], r4) else none
              | [] => none
          | _ => none
      else none
    | [] => none

end

/-- Model of `serde_json::from_str::<serde_json::Value>`: parse the whole
input as one JSON document (trailing whitespace allowed, anything else
rejected). -/
def Json.parse (s : String) : Option Json :=
  match pVal (2 * s.data.length + 8) s.data with
  | none => none
  | some (v, rest) => if skipWs rest = [] then some v else none

/-- Last-wins association-list lookup: `serde_json::Value` objects are maps
where inserting a duplicate key overwrites the earlier binding, so the last
occurrence of a key in document order is the one observed. -/
def lookupLast (kvs : List (String × Json)) (k : String) : Option Json :=
  match kvs with
  | [] => none
  | (k2, v) :: rest =>
    match lookupLast rest k with
    | some v2 => some v2
    | none => if k2 = k then some v else none

/-- Model of `Value::get(key)`: `none` on non-objects and missing keys. -/
def Json.lookupKey : Json → String → Option Json
  | .obj kvs, k => lookupLast kvs k
  | _, _ => none

/-- Model of `Value::index` (`msg["error"]`): `Json.null` when the key is
missing or the value is not an object. -/
def Json.index (j : Json) (k : String) : Json :=
  (j.lookupKey k).getD .null

/-- Model of `Value::as_str`. -/
def Json.asStr : Json → Option String
  | .str s => some s
  | _ => none

/-- The correlation id of a JSON-RPC frame, as read by the WebSocket loop:
`msg.get("id").and_then(|v| v.as_str())`. -/
def Json.idStr (j : Json) : Option String :=
  (j.lookupKey "id").bind Json.asStr

/-- Extract a string list from a JSON array of strings, failing on any
non-string element (the element type of `DashSet<String>`). -/
def allStrings : List Json → Option (List String)
  | [] => some []
  | .str s :: rest =>
    match allStrings rest with
    | none => none
    | some ss => some (s :: ss)
  | _ :: _ => none

/-- Model of deserializing the `Trackers` struct from a parsed document:
the document must be an object, the `trackers` field must occur exactly once
(serde rejects a duplicate field) and hold a sequence of strings; unknown
fields are ignored. -/
def trackersOfJson (j : Json) : Option (List String) :=
  match j with
  | .obj kvs =>
    match kvs.filter (fun kv => kv.1 = "trackers") with
    | [(_, .arr xs)] => allStrings xs
    | _ => none
  | _ => none

/-- Model of `serde_json::from_str::<Trackers>`: parse then deserialize. -/
def parseTrackersDoc (s : String) : Option (List String) :=
  (Json.parse s).bind trackersOfJson

/-! ### Sets of strings

`DashSet<String>` is modelled as a duplicate-free list in first-insertion
order: inserting an element already present leaves the set unchanged. -/

/-- Insert one element into the set unless already present. -/
def setAdd (l : List String) (x : String) : List String :=
  if x ∈ l then l else l ++ [x]

/-- Model of `extend`: insert all elements in order. -/
def setExtend (l : List String) (xs : List String) : List String :=
  xs.foldl setAdd l

/-- Model of `collect::<DashSet<String>>()`. -/
def listToSet (xs : List String) : List String :=
  setExtend [] xs

/-! ### Splitting and joining -/

/-- Prepend a character to the first piece of a split result. -/
def consHead (c : Char) : List (List Char) → List (List Char)
  | [] => [[c]]
  | h :: t => (c :: h) :: t

/-- Split a character list on a separator character, keeping empty pieces,
as Rust `str::split` with a one-character pattern does. -/
def splitCh (sep : Char) : List Char → List (List Char)
  | [] => [[]]
  | c :: rest => if c = sep then [] :: splitCh sep rest else consHead c (splitCh sep rest)

/-- Model of Rust `split(",")` on strings. -/
def splitComma (s : String) : List String :=
  (splitCh ',' s.data).map fun l => ⟨l⟩

/-- Fuel-indexed split of a character list on a (non-empty) separator
substring, leftmost-first, keeping empty pieces. -/
def splitSubFuel (pat : List Char) : Nat → List Char → List (List Char)
  | 0, cs => [cs]
  | fuel + 1, cs =>
    if pat ≠ [] ∧ pat.isPrefixOf cs then
      [] :: splitSubFuel pat fuel (cs.drop pat.length)
    else
      match cs with
      | [] => [[]]
      | c :: rest => consHead c (splitSubFuel pat fuel rest)

/-- Model of Rust `split("\n\n")` on strings. -/
def splitBlank (s : String) : List String :=
  (splitSubFuel ['\n', '\n'] s.data.length s.data).map fun l => ⟨l⟩

/-- Does a character list contain the pattern as a contiguous substring? -/
def hasSub (pat : List Char) : List Char → Bool
  | [] => pat.isEmpty
  | c :: rest => pat.isPrefixOf (c :: rest) || hasSub pat rest

/-- Model of Rust `str::contains(",")`. -/
def strContainsComma (s : String) : Bool :=
  hasSub [','] s.data

/-- Model of Rust `str::contains("\n\n")`. -/
def strContainsBlank (s : String) : Bool :=
  hasSub ['\n', '\n'] s.data

/-- Model of Rust `str::ends_with`. -/
def strEndsWith (s pat : String) : Bool :=
  pat.data.isSuffixOf s.data

/-- Model of Rust `str::starts_with`. -/
def strStartsWith (s pat : String) : Bool :=
  pat.data.isPrefixOf s.data

/-- Join a list of character lists with a separator list between pieces,
as Rust `Vec::join` does. -/
def joinSepL (sep : List Char) : List (List Char) → List Char
  | [] => []
  | [x] => x
  | x :: y :: ys => x ++ sep ++ joinSepL sep (y :: ys)

/-- Model of `Vec::join(",")`. -/
def joinComma (l : List String) : String :=
  ⟨joinSepL [','] (l.map String.data)⟩

/-- Model of `Vec::join("\n\n")`. -/
def joinBlank (l : List String) : String :=
  ⟨joinSepL ['\n', '\n'] (l.map String.data)⟩

/-! ### The core functions of src/lib.rs -/

/-- Model of `parse_tracker`. A panic (`panic!("Invalid tracker list
format")`) is modelled as `Except.error ()`. The three shapes are tried in
source order: `serde_json::from_str::<Trackers>`, then comma-separated
text, then blank-line-separated text. -/
def parse_tracker (trackers_list : String) : Except Unit (List String) :=
  match parseTrackersDoc trackers_list with
  | some ts => .ok (listToSet ts)
  | none =>
    if strContainsComma trackers_list then .ok (listToSet (splitComma trackers_list))
    else if strContainsBlank trackers_list then .ok (listToSet (splitBlank trackers_list))
    else .error ()

/-- The fetchable references of a configured descriptor list: the
descriptors that do not end with `announce` (second component of the
`partition` in `get_trackers`); one network request is issued per entry. -/
def requestsOf (config : List String) : List String :=
  config.filter fun t => !strEndsWith t "announce"

/-- The literal descriptors: those ending with `announce` (first component
of the `partition`). -/
def literalsOf (config : List String) : List String :=
  config.filter fun t => strEndsWith t "announce"

/-- Model of `get_trackers`, parameterized by the configured descriptor
list (the parsed contents of `trackers.yml`) and by the network `net`,
mapping a URL to a response body or a transport failure. Every `unwrap` or
panic in a fetch task (request creation, send, body read, unparseable
payload) aborts the whole operation and is modelled as `Except.error ()`.
Literal descriptors seed the set; each fetched payload is parsed with
`parse_tracker` and its trackers are inserted into the shared set. The
concurrent `join_all` over the fetch tasks is flattened into one pass over
the request list: any task panic aborts the whole operation either way, and
the claims below only concern membership and duplicate-freedom of the
resulting set, which are insensitive to task interleaving. -/
def fetchLoop (net : String → Except Unit String) :
    List String → List String → Except Unit (List String)
  | acc, [] => .ok acc
  | acc, url :: rest =>
    match net url with
    | .error e => .error e
    | .ok body =>
      match parse_tracker body with
      | .error e => .error e
      | .ok ts => fetchLoop net (setExtend acc ts) rest

def get_trackers (config : List String) (net : String → Except Unit String) :
    Except Unit (List String) :=
  fetchLoop net (listToSet (literalsOf config)) (requestsOf config)

/-- Model of an outbound HTTP response built with `Response::ok`. -/
structure HttpResponse where
  status : Nat
  body : String
deriving Repr, DecidableEq

/-- Model of the `fetch` event handler: choose the separator from the
request path, build the tracker set, join, answer with status 200. A panic
inside `get_trackers` propagates as `Except.error ()` (the unrecovered
internal failure path). -/
def fetchHandler (path : String) (config : List String)
    (net : String → Except Unit String) : Except Unit HttpResponse :=
  (get_trackers config net).map fun trackers =>
    { status := 200
      body := if path = "/" then joinComma trackers else joinBlank trackers }

/-- Model of the JSON-RPC envelope built by `scheduled`. -/
def buildPayload (secret_key : String) (trackers : String) : Json :=
  .obj
    [ ("jsonrpc", .str "2.0")
    , ("method", .str "aria2.changeGlobalOption")
    , ("id", .str "cron")
    , ("params", .arr
        [ .str ("token:" ++ secret_key)
        , .obj [("bt-tracker", .str trackers)] ]) ]

/-- The delivery action chosen by `scheduled`: one HTTP POST carrying the
envelope, or one WebSocket send of the envelope. -/
inductive Delivery where
  | httpPost (url : String) (body : Json) : Delivery
  | wsSend (url : String) (body : Json) : Delivery

/-- Model of the `scheduled` event handler up to the transport call: build
the tracker set, join with commas, build the envelope, and choose the
transport by `aria2_url.starts_with("http")`. -/
def scheduled (aria2_url secret_key : String) (config : List String)
    (net : String → Except Unit String) : Except Unit Delivery :=
  (get_trackers config net).map fun trackers =>
    let pay_load := buildPayload secret_key (joinComma trackers)
    if strStartsWith aria2_url "http" then .httpPost aria2_url pay_load
    else .wsSend aria2_url pay_load

/-- Outcome of dispatching one JSON-RPC response: the `result` value is
logged, or the `error` value is logged. Both are normal completions. -/
inductive SyncOutcome where
  | resultLogged (r : Json) : SyncOutcome
  | errorLogged (e : Json) : SyncOutcome

/-- Dispatch on `response.get("result")`: `Some` logs the result, `None`
logs `response["error"]`. Shared verbatim by both transports. -/
def rpcDispatch (response : Json) : SyncOutcome :=
  match response.lookupKey "result" with
  | some r => .resultLogged r
  | none => .errorLogged (response.index "error")

/-- Model of `change_global_option_http` from the response body onward:
`json::<serde_json::Value>()` panics on an unparseable body
(`Except.error ()`), otherwise the dispatch is total — an `error` reply is
logged and the call completes. -/
def change_global_option_http (response_body : String) : Except Unit SyncOutcome :=
  match Json.parse response_body with
  | none => .error ()
  | some response => .ok (rpcDispatch response)

/-- Result of the WebSocket receive loop. -/
inductive WsOutcome where
  | dispatched (o : SyncOutcome) : WsOutcome
  | streamEnded : WsOutcome

/-- Model of the receive loop of `change_global_option_ws` over the stream
of incoming text frames. Each frame is parsed with
`serde_json::from_str::<serde_json::Value>` — a parse failure panics
(`Except.error ()`). A parsed frame whose `id` is not the string `cron` is
skipped; the first frame whose `id` is `cron` is dispatched and the loop
breaks. A stream ending without a match ends the loop normally. -/
def wsReceive : List String → Except Unit WsOutcome
  | [] => .ok .streamEnded
  | frame :: rest =>
    match Json.parse frame with
    | none => .error ()
    | some msg =>
      if msg.idStr = some "cron" then .ok (.dispatched (rpcDispatch msg))
      else wsReceive rest

/-! ### Helper lemmas about the set operations -/

theorem mem_setAdd_iff (l : List String) (x y : String) :
    y ∈ setAdd l x ↔ y ∈ l ∨ y = x := by
  unfold setAdd
  by_cases hx : x ∈ l
  · simp only [if_pos hx]
    constructor
    · exact fun h => Or.inl h
    · rintro (h | rfl)
      · exact h
      · exact hx
  · simp [if_neg hx]

theorem mem_of_mem_setAdd_arg (l : List String) (x y : String) (h : y ∈ l) :
    y ∈ setAdd l x :=
  (mem_setAdd_iff l x y).mpr (Or.inl h)

theorem nodup_setAdd (l : List String) (x : String) (h : l.Nodup) :
    (setAdd l x).Nodup := by
  unfold setAdd
  by_cases hx : x ∈ l
  · simpa [if_pos hx]
  · rw [if_neg hx]
    simp [List.nodup_append, h, hx]

theorem mem_setExtend_of_mem (xs : List String) (l : List String) (y : String)
    (h : y ∈ l) : y ∈ setExtend l xs := by
  induction xs generalizing l with
  | nil => exact h
  | cons x xs ih =>
    exact ih (setAdd l x) (mem_of_mem_setAdd_arg l x y h)

theorem nodup_setExtend (xs : List String) (l : List String) (h : l.Nodup) :
    (setExtend l xs).Nodup := by
  induction xs generalizing l with
  | nil => exact h
  | cons x xs ih => exact ih (setAdd l x) (nodup_setAdd l x h)

theorem mem_listToSet_of_mem (xs : List String) (y : String) (h : y ∈ xs) :
    y ∈ listToSet xs := by
  have main : ∀ (zs : List String) (l : List String), y ∈ zs ∨ y ∈ l →
      y ∈ setExtend l zs := by
    intro zs
    induction zs with
    | nil =>
      intro l h
      rcases h with h | h
      · cases h
      · exact h
    | cons z zs ih =>
      intro l h
      rcases h with h | h
      · rcases List.mem_cons.mp h with rfl | h2
        · exact ih (setAdd l y) (Or.inr ((mem_setAdd_iff l y y).mpr (Or.inr rfl)))
        · exact ih (setAdd l z) (Or.inl h2)
      · exact ih (setAdd l z) (Or.inr (mem_of_mem_setAdd_arg l z y h))
  exact main xs [] (Or.inl h)

theorem nodup_listToSet (xs : List String) : (listToSet xs).Nodup :=
  nodup_setExtend xs [] List.nodup_nil

/-! ### Helper lemmas about the fetch loop -/

theorem fetchLoop_ok_mono (net : String → Except Unit String)
    (reqs : List String) (acc res : List String) (y : String)
    (hrun : fetchLoop net acc reqs = .ok res) (hy : y ∈ acc) : y ∈ res := by
  induction reqs generalizing acc with
  | nil =>
    simp only [fetchLoop] at hrun
    cases hrun
    exact hy
  | cons url rest ih =>
    cases hnet : net url with
    | error e => simp [fetchLoop, hnet] at hrun
    | ok body =>
      cases hparse : parse_tracker body with
      | error e => simp [fetchLoop, hnet, hparse] at hrun
      | ok ts =>
        simp only [fetchLoop, hnet, hparse] at hrun
        exact ih (setExtend acc ts) hrun (mem_setExtend_of_mem ts acc y hy)

theorem fetchLoop_ok_nodup (net : String → Except Unit String)
    (reqs : List String) (acc res : List String)
    (hrun : fetchLoop net acc reqs = .ok res) (hacc : acc.Nodup) : res.Nodup := by
  induction reqs generalizing acc with
  | nil =>
    simp only [fetchLoop] at hrun
    cases hrun
    exact hacc
  | cons url rest ih =>
    cases hnet : net url with
    | error e => simp [fetchLoop, hnet] at hrun
    | ok body =>
      cases hparse : parse_tracker body with
      | error e => simp [fetchLoop, hnet, hparse] at hrun
      | ok ts =>
        simp only [fetchLoop, hnet, hparse] at hrun
        exact ih (setExtend acc ts) hrun (nodup_setExtend ts acc hacc)

theorem fetchLoop_error_of_bad_url (net : String → Except Unit String)
    (reqs : List String) (acc : List String) (url body : String)
    (hmem : url ∈ reqs) (hnet : net url = .ok body)
    (hparse : parse_tracker body = .error ()) :
    fetchLoop net acc reqs = .error () := by
  induction reqs generalizing acc with
  | nil => cases hmem
  | cons u rest ih =>
    rcases List.mem_cons.mp hmem with rfl | hmem2
    · simp only [fetchLoop, hnet, hparse]
    · cases hn : net u with
      | error e => cases e; simp [fetchLoop, hn]
      | ok b =>
        cases hp : parse_tracker b with
        | error e => cases e; simp [fetchLoop, hn, hp]
        | ok ts =>
          simp only [fetchLoop, hn, hp]
          exact ih (setExtend acc ts) hmem2

/-! ### Helper lemmas about splitting and joining -/

theorem hasSub_singleton (c : Char) (cs : List Char) :
    hasSub [c] cs = true ↔ c ∈ cs := by
  induction cs with
  | nil => simp [hasSub, List.isEmpty]
  | cons d rest ih =>
    have hpre : ([c].isPrefixOf (d :: rest)) = (c == d) := by
      simp [List.isPrefixOf]
    simp [hasSub, hpre, ih, List.mem_cons]

theorem strContainsComma_eq_false_iff (s : String) :
    strContainsComma s = false ↔ ',' ∉ s.data := by
  unfold strContainsComma
  rw [← Bool.not_eq_true, not_iff_not]
  exact hasSub_singleton ',' s.data

theorem splitCh_of_not_mem (sep : Char) (x : List Char) (h : sep ∉ x) :
    splitCh sep x = [x] := by
  induction x with
  | nil => rfl
  | cons c rest ih =>
    have hc : ¬ c = sep := fun hcs => h (hcs ▸ List.mem_cons_self c rest)
    have hrest : sep ∉ rest := fun hr => h (List.mem_cons_of_mem c hr)
    simp only [splitCh, if_neg hc, ih hrest, consHead]

theorem splitCh_append (sep : Char) (x t : List Char) (h : sep ∉ x) :
    splitCh sep (x ++ sep :: t) = x :: splitCh sep t := by
  induction x with
  | nil => simp [splitCh]
  | cons c rest ih =>
    have hc : ¬ c = sep := fun hcs => h (hcs ▸ List.mem_cons_self c rest)
    have hrest : sep ∉ rest := fun hr => h (List.mem_cons_of_mem c hr)
    simp only [List.cons_append, splitCh, if_neg hc, List.append_eq, ih hrest, consHead]

theorem splitCh_joinSepL (sep : Char) (ls : List (List Char)) (hne : ls ≠ [])
    (hall : ∀ l ∈ ls, sep ∉ l) : splitCh sep (joinSepL [sep] ls) = ls := by
  induction ls with
  | nil => cases hne rfl
  | cons x ys ih =>
    cases ys with
    | nil =>
      simp only [joinSepL]
      exact splitCh_of_not_mem sep x (hall x (List.mem_cons_self x []))
    | cons y ys2 =>
      have hx : sep ∉ x := hall x (List.mem_cons_self x (y :: ys2))
      have hrest : ∀ l ∈ y :: ys2, sep ∉ l := fun l hl =>
        hall l (List.mem_cons_of_mem x hl)
      have hjoin : joinSepL [sep] (x :: y :: ys2) = x ++ sep :: joinSepL [sep] (y :: ys2) := by
        simp [joinSepL]
      rw [hjoin, splitCh_append sep x _ hx, ih (by simp) hrest]

theorem string_mk_data (s : String) : (⟨s.data⟩ : String) = s := rfl

theorem splitComma_joinComma (res : List String) (hne : res ≠ [])
    (hall : ∀ x ∈ res, strContainsComma x = false) :
    splitComma (joinComma res) = res := by
  unfold splitComma joinComma
  have hne2 : res.map String.data ≠ [] := by
    intro h
    exact hne (List.map_eq_nil_iff.mp h)
  have hall2 : ∀ l ∈ res.map String.data, ',' ∉ l := by
    intro l hl
    rcases List.mem_map.mp hl with ⟨x, hx, rfl⟩
    exact (strContainsComma_eq_false_iff x).mp (hall x hx)
  show (splitCh ',' (joinSepL [','] (res.map String.data))).map
      (fun l => (⟨l⟩ : String)) = res
  rw [splitCh_joinSepL ',' (res.map String.data) hne2 hall2]
  rw [List.map_map]
  have : (fun l => (⟨l⟩ : String)) ∘ String.data = id := by
    funext x
    exact string_mk_data x
  rw [this, List.map_id]

/-! ### Concrete payloads used by witnesses and counterexamples -/

/-- A JSON payload whose single tracker value contains a literal comma. -/
def jsonCommaPayload : String := "\x7b\"trackers\":[\"udp://a,b/announce\"]\x7d"

/-- A YAML (but not JSON) document with a `trackers` field holding a list
of strings. -/
def yamlPayload : String := "trackers:\n- udp://a/announce"

/-- A server-pushed notification frame whose `id` is not `cron`. -/
def wsFrameOther : String := "\x7b\"id\":\"notify\",\"method\":\"aria2.onDownloadStart\"\x7d"

/-- The parsed form of `wsFrameOther`. -/
def notifyJson : Json :=
  .obj [("id", .str "notify"), ("method", .str "aria2.onDownloadStart")]

/-- The error reply of end-to-end scenario 4. -/
def wsFrameCronError : String :=
  "\x7b\"id\":\"cron\",\"error\":\x7b\"code\":1,\"message\":\"x\"\x7d\x7d"

/-- The parsed form of `wsFrameCronError`. -/
def cronErrorJson : Json :=
  .obj [("id", .str "cron"),
        ("error", .obj [("code", .num "1"), ("message", .str "x")])]

/-- A JSON payload whose single tracker value makes the comma round-trip
fail. -/
def jsonCommaBody : String := "\x7b\"trackers\":[\"udp://a,udp://b\"]\x7d"

/-! ### Claim C1 -/

/-- Claim C1 (amended: shape (1) is a structured JSON document, not general
YAML): `parse_tracker` tries the three recognized shapes in order — (1) a
JSON document deserializing to a `trackers` field holding a list of
strings, (2) comma-separated flat text, (3) blank-line-separated flat
text — and the first shape that parses successfully wins; in particular a
payload that deserializes via shape (1) is never comma-split, even if its
string values contain literal commas. -/
theorem c1_shape_priority :
    (∀ s ts, parseTrackersDoc s = some ts →
      parse_tracker s = .ok (listToSet ts)) ∧
    (∀ s, parseTrackersDoc s = none → strContainsComma s = true →
      parse_tracker s = .ok (listToSet (splitComma s))) ∧
    (∀ s, parseTrackersDoc s = none → strContainsComma s = false →
      strContainsBlank s = true →
      parse_tracker s = .ok (listToSet (splitBlank s))) := by
  refine ⟨?_, ?_, ?_⟩
  · intro s ts h
    simp [parse_tracker, h]
  · intro s h hc
    simp [parse_tracker, h, hc]
  · intro s h hc hb
    simp [parse_tracker, h, hc, hb]

/-- Witness for C1: a JSON payload with a literal comma inside its one
string value is parsed via shape (1) and not comma-split. -/
theorem c1_witness :
    strContainsComma jsonCommaPayload = true ∧
    parse_tracker jsonCommaPayload = .ok (listToSet ["udp://a,b/announce"]) :=
  ⟨by decide,
   c1_shape_priority.1 jsonCommaPayload ["udp://a,b/announce"] (by decide)⟩

/-- Counterexample for C1 as stated: a YAML-but-not-JSON document with a
`trackers` field holding a list of strings is not recognized by any shape —
`parse_tracker` panics on it instead of parsing it via shape (1). -/
theorem c1_counterexample : parse_tracker yamlPayload = .error () := rfl

/-! ### Claim C2 -/

/-- Claim C2: the WebSocket receive loop skips every leading frame whose
`id` is not the string `cron` and dispatches on the first frame whose `id`
is `cron`, terminating there (frames after it are never examined),
regardless of how many non-matching frames precede it. -/
theorem c2_ws_first_cron (pre : List String) (f : String) (post : List String)
    (jf : Json)
    (hpre : ∀ g ∈ pre, ∃ j, Json.parse g = some j ∧ j.idStr ≠ some "cron")
    (hf : Json.parse f = some jf) (hid : jf.idStr = some "cron") :
    wsReceive (pre ++ f :: post) = .ok (.dispatched (rpcDispatch jf)) := by
  induction pre with
  | nil =>
    simp [wsReceive, hf, hid]
  | cons g rest ih =>
    rcases hpre g (List.mem_cons_self g rest) with ⟨j, hj, hne⟩
    simp only [List.cons_append, wsReceive, hj, if_neg hne]
    exact ih fun g2 hg2 => hpre g2 (List.mem_cons_of_mem g hg2)

/-- Witness for C2: one notification frame is skipped, the `cron` error
frame is dispatched, and a trailing frame is never examined. -/
theorem c2_witness :
    wsReceive [wsFrameOther, wsFrameCronError, "trailing ignored frame"]
      = .ok (.dispatched (rpcDispatch cronErrorJson)) :=
  c2_ws_first_cron [wsFrameOther] wsFrameCronError ["trailing ignored frame"]
    cronErrorJson
    (by
      intro g hg
      rcases List.mem_singleton.mp hg with rfl
      exact ⟨notifyJson, rfl, by decide⟩)
    rfl (by decide)

/-! ### Claim C3 -/

/-- Claim C3: `scheduled` selects the transport from the single configured
URL — a URL starting with `http` is delivered as one HTTP POST carrying the
JSON-RPC envelope, any other URL over a WebSocket send of the same
envelope. -/
theorem c3_transport_selection (aria2_url secret_key : String)
    (config : List String) (net : String → Except Unit String)
    (ts : List String) (h : get_trackers config net = .ok ts) :
    (strStartsWith aria2_url "http" = true →
      scheduled aria2_url secret_key config net
        = .ok (.httpPost aria2_url (buildPayload secret_key (joinComma ts)))) ∧
    (strStartsWith aria2_url "http" = false →
      scheduled aria2_url secret_key config net
        = .ok (.wsSend aria2_url (buildPayload secret_key (joinComma ts)))) := by
  constructor <;> intro hs <;> simp [scheduled, Except.map, h, hs]

/-- Witness for C3: `http://host/jsonrpc` goes over HTTP POST and
`ws://host/jsonrpc` over WebSocket. -/
theorem c3_witness :
    scheduled "http://host/jsonrpc" "k" [] (fun _ => Except.error ())
      = .ok (.httpPost "http://host/jsonrpc" (buildPayload "k" (joinComma []))) ∧
    scheduled "ws://host/jsonrpc" "k" [] (fun _ => Except.error ())
      = .ok (.wsSend "ws://host/jsonrpc" (buildPayload "k" (joinComma []))) :=
  ⟨(c3_transport_selection "http://host/jsonrpc" "k" []
      (fun _ => Except.error ()) [] rfl).1 (by decide),
   (c3_transport_selection "ws://host/jsonrpc" "k" []
      (fun _ => Except.error ()) [] rfl).2 (by decide)⟩

/-! ### Claim C4 -/

/-- Claim C4: a fetched payload matching none of the three recognized
shapes makes the whole `get_trackers` operation fail — no partial result is
produced. -/
theorem c4_unparseable_payload_fatal (config : List String)
    (net : String → Except Unit String) (url body : String)
    (hmem : url ∈ requestsOf config) (hnet : net url = .ok body)
    (hparse : parse_tracker body = .error ()) :
    get_trackers config net = .error () :=
  fetchLoop_error_of_bad_url net (requestsOf config)
    (listToSet (literalsOf config)) url body hmem hnet hparse

/-- Witness for C4: one source returning separator-free plain text aborts
the whole aggregation even though the literal descriptor was fine. -/
theorem c4_witness :
    get_trackers ["udp://a/announce", "https://list.example/x"]
      (fun u => if u = "https://list.example/x"
        then Except.ok "plain text without separators" else Except.error ())
      = .error () :=
  c4_unparseable_payload_fatal
    ["udp://a/announce", "https://list.example/x"]
    (fun u => if u = "https://list.example/x"
      then Except.ok "plain text without separators" else Except.error ())
    "https://list.example/x" "plain text without separators"
    (by decide) rfl rfl

/-! ### Claim C5 -/

/-- Claim C5: a descriptor ending with `announce` is classified literal —
no network request is issued for it and it appears verbatim in every
successful output set; all other descriptors become the request list. -/
theorem c5_literal_descriptors (config : List String)
    (net : String → Except Unit String) (s : String) (res : List String)
    (hs : s ∈ config) (hsuf : strEndsWith s "announce" = true) :
    s ∉ requestsOf config ∧
    (get_trackers config net = .ok res → s ∈ res) := by
  constructor
  · intro hmem
    have h2 := (List.mem_filter.mp hmem).2
    rw [hsuf] at h2
    cases h2
  · intro hok
    have hlit : s ∈ literalsOf config := List.mem_filter.mpr ⟨hs, hsuf⟩
    have hset : s ∈ listToSet (literalsOf config) :=
      mem_listToSet_of_mem (literalsOf config) s hlit
    exact fetchLoop_ok_mono net (requestsOf config)
      (listToSet (literalsOf config)) res s hok hset

/-- Witness for C5: the literal `udp://a/announce` is not fetched and is in
the output verbatim. -/
theorem c5_witness :
    "udp://a/announce" ∉ requestsOf ["udp://a/announce"] ∧
    (get_trackers ["udp://a/announce"] (fun _ => Except.error ())
        = .ok ["udp://a/announce"] →
      "udp://a/announce" ∈ ["udp://a/announce"]) :=
  c5_literal_descriptors ["udp://a/announce"] (fun _ => Except.error ())
    "udp://a/announce" ["udp://a/announce"] (by decide) (by decide)

/-! ### Claim C6 -/

/-- Claim C6 (amended: the non-emptiness half is dropped): every tracker
set produced by `get_trackers` contains no duplicate entries — nothing in
the pipeline, however, rules out empty-string entries, which arise from
comma- or blank-line payloads with empty segments. -/
theorem c6_nodup (config : List String) (net : String → Except Unit String)
    (res : List String) (h : get_trackers config net = .ok res) :
    res.Nodup :=
  fetchLoop_ok_nodup net (requestsOf config) (listToSet (literalsOf config))
    res h (nodup_listToSet (literalsOf config))

/-- Witness for C6: a concrete successful run whose output is
duplicate-free. -/
theorem c6_witness : (["a", ""] : List String).Nodup :=
  c6_nodup ["u"] (fun _ => Except.ok "a,") ["a", ""] rfl

/-- Counterexample for C6 as stated: a fetched payload `a,` yields the
output set `["a", ""]`, which contains the empty string — the invariant
"every entry is a non-empty string" fails on the code. -/
theorem c6_counterexample :
    get_trackers ["u"] (fun _ => Except.ok "a,") = .ok ["a", ""] ∧
    ¬ (∀ x ∈ (["a", ""] : List String), x ≠ "") :=
  ⟨rfl, by decide⟩

/-! ### Claim C7 -/

/-- Claim C7 (amended: restricted to non-empty outputs whose entries are
comma-free): joining such an output set with `,` and re-splitting by `,`
reconstructs it exactly; an entry containing a literal comma — possible via
the JSON shape — breaks the round trip. -/
theorem c7_roundtrip (config : List String) (net : String → Except Unit String)
    (res : List String) (_hrun : get_trackers config net = .ok res)
    (hne : res ≠ []) (hnc : ∀ x ∈ res, strContainsComma x = false) :
    splitComma (joinComma res) = res :=
  splitComma_joinComma res hne hnc

/-- Witness for C7: the singleton output of a literal-only run
round-trips. -/
theorem c7_witness : splitComma (joinComma ["udp://a/announce"]) = ["udp://a/announce"] :=
  c7_roundtrip ["udp://a/announce"] (fun _ => Except.error ())
    ["udp://a/announce"] rfl (by decide) (by decide)

/-- Counterexample for C7 as stated: an aggregated output whose single
entry contains a comma (delivered through the JSON shape) does not survive
the join/split round trip — the re-split has two elements, neither equal to
the original entry. -/
theorem c7_counterexample :
    get_trackers ["u"] (fun _ => Except.ok jsonCommaBody)
      = .ok ["udp://a,udp://b"] ∧
    splitComma (joinComma ["udp://a,udp://b"]) = ["udp://a", "udp://b"] ∧
    ¬ (∀ x : String, x ∈ splitComma (joinComma ["udp://a,udp://b"])
        ↔ x ∈ (["udp://a,udp://b"] : List String)) := by
  refine ⟨rfl, rfl, fun h => ?_⟩
  have h2 := (h "udp://a,udp://b").mpr (by decide)
  rw [show splitComma (joinComma ["udp://a,udp://b"]) = ["udp://a", "udp://b"]
    from rfl] at h2
  exact absurd h2 (by decide)

/-! ### Claim C8 -/

/-- Claim C8: when the daemon reply carries no `result` key, both
transports complete normally (no panic, modelled as `Except.ok`) with the
`error` value logged, and no retry exists — the dispatch is the final step
of either transport. -/
theorem c8_error_reply_logged (s : String) (j : Json)
    (hparse : Json.parse s = some j) (hres : j.lookupKey "result" = none)
    (hid : j.idStr = some "cron") :
    change_global_option_http s = .ok (.errorLogged (j.index "error")) ∧
    wsReceive [s] = .ok (.dispatched (.errorLogged (j.index "error"))) := by
  constructor
  · simp [change_global_option_http, hparse, rpcDispatch, hres]
  · simp [wsReceive, hparse, hid, rpcDispatch, hres]

/-- Witness for C8: the scenario-4 reply
`\x7b"id":"cron","error":\x7b"code":1,"message":"x"\x7d\x7d` is logged as an
error and completes on both transports. -/
theorem c8_witness :
    change_global_option_http wsFrameCronError
      = .ok (.errorLogged (cronErrorJson.index "error")) ∧
    wsReceive [wsFrameCronError]
      = .ok (.dispatched (.errorLogged (cronErrorJson.index "error"))) :=
  c8_error_reply_logged wsFrameCronError cronErrorJson rfl rfl rfl

/-! ### Claim C9 -/

/-- Claim C9: on a successful aggregation the `fetch` handler answers with
status 200 and a body of all trackers joined by `,` for path `/`, and
joined by a blank line for any other path; an internal failure aborts
instead (`Except.error`). -/
theorem c9_fetch_response (path : String) (config : List String)
    (net : String → Except Unit String) (res : List String)
    (h : get_trackers config net = .ok res) :
    (path = "/" →
      fetchHandler path config net = .ok ⟨200, joinComma res⟩) ∧
    (path ≠ "/" →
      fetchHandler path config net = .ok ⟨200, joinBlank res⟩) := by
  constructor <;> intro hp <;> simp [fetchHandler, Except.map, h, hp]

/-- Witness for C9: a literal-only configuration served at `/` and at
`/all`. -/
theorem c9_witness :
    fetchHandler "/" ["udp://a/announce"] (fun _ => Except.error ())
      = .ok ⟨200, joinComma ["udp://a/announce"]⟩ ∧
    fetchHandler "/all" ["udp://a/announce"] (fun _ => Except.error ())
      = .ok ⟨200, joinBlank ["udp://a/announce"]⟩ :=
  ⟨(c9_fetch_response "/" ["udp://a/announce"] (fun _ => Except.error ())
      ["udp://a/announce"] rfl).1 rfl,
   (c9_fetch_response "/all" ["udp://a/announce"] (fun _ => Except.error ())
      ["udp://a/announce"] rfl).2 (by decide)⟩

/-! ### Claim C10 -/

/-- Claim C10: an incoming text frame that is not valid JSON makes the
receive loop panic (`Except.error`), aborting the sync invocation, even if
a matching frame would have followed; only frames that do parse as JSON and
whose `id` is not `cron` are silently skipped. -/
theorem c10_invalid_frame_aborts (pre : List String) (f : String)
    (post : List String)
    (hpre : ∀ g ∈ pre, ∃ j, Json.parse g = some j ∧ j.idStr ≠ some "cron")
    (hf : Json.parse f = none) :
    wsReceive (pre ++ f :: post) = .error () ∧
    (∀ g rest j, Json.parse g = some j → j.idStr ≠ some "cron" →
      wsReceive (g :: rest) = wsReceive rest) := by
  constructor
  · induction pre with
    | nil => simp [wsReceive, hf]
    | cons g rest ih =>
      rcases hpre g (List.mem_cons_self g rest) with ⟨j, hj, hne⟩
      simp only [List.cons_append, wsReceive, hj, if_neg hne]
      exact ih fun g2 hg2 => hpre g2 (List.mem_cons_of_mem g hg2)
  · intro g rest j hj hne
    simp only [wsReceive, hj, if_neg hne]

/-- Witness for C10: a malformed frame after one skipped notification
aborts the loop even though a matching `cron` frame follows. -/
theorem c10_witness :
    wsReceive [wsFrameOther, "this is not json", wsFrameCronError]
      = .error () :=
  (c10_invalid_frame_aborts [wsFrameOther] "this is not json"
    [wsFrameCronError]
    (by
      intro g hg
      rcases List.mem_singleton.mp hg with rfl
      exact ⟨notifyJson, rfl, by decide⟩)
    rfl).1

end TrackerCollector
